import Mathlib

/-!
Verification of the catalog scraper (coding_samples/python_sample.py).

The script downloads paginated search results from a library catalog,
extracts one record per result row, stores the records in a per-language
SQLite table, and tracks which (language, DDC code) units are finished in a
per-language CSV ledger.

Python strings are embedded as lists of characters (`PyStr`); the HTTP
transport and the HTML parse are abstracted into an oracle that yields the
heading text of a fetched page; SQLite is modelled by an explicit row list
together with the uniqueness constraints the CREATE TABLE statement
declares; the pandas CSV ledger is an optional list of codes (`none` models
the file being absent, the FileNotFoundError branch).
-/

namespace Scraper

/-- Python strings are modelled as lists of characters. -/
abbrev PyStr := List Char

/-- The ASCII whitespace characters Python `str.strip()` removes. -/
def pyIsSpace (c : Char) : Bool :=
  c = ' ' || c = '\t' || c = '\n' || c = '\r' || c = '\x0b' || c = '\x0c'

/-- Python `s.strip()`: remove leading and trailing whitespace. -/
def pyStrip (s : PyStr) : PyStr :=
  ((s.dropWhile pyIsSpace).reverse.dropWhile pyIsSpace).reverse

/-- Python `s.replace(old, "")` for a one-character `old`: every occurrence
of the character is removed (`title.replace("\n", "")` and friends in
`clean_title`). -/
def removeChar (c : Char) (s : PyStr) : PyStr :=
  s.filter (fun d => d != c)

/-- The scan of Python `s.replace(pat, "")` for a non-empty pattern, with
explicit fuel (structural recursion on the fuel, so that the kernel can
evaluate it): at each position, skip the pattern when it matches there,
otherwise keep the character. One unit of fuel is spent per position, and
every step consumes at least one character, so fuel `s.length` is enough. -/
def removeSubAux (pat : PyStr) : PyStr → Nat → PyStr
  | s, 0 => s
  | [], _ + 1 => []
  | c :: rest, fuel + 1 =>
    if pat ≠ [] ∧ pat.isPrefixOf (c :: rest) then removeSubAux pat ((c :: rest).drop pat.length) fuel
    else c :: removeSubAux pat rest fuel

/-- Python `s.replace(pat, "")` for a non-empty pattern string: scan left to
right, removing each non-overlapping occurrence (used for the
`"Material type:"` label in `extract_book_type`). -/
def removeSub (pat : PyStr) (s : PyStr) : PyStr :=
  removeSubAux pat s s.length

/-- `clean_title` (python_sample.py lines 101-109): remove newline
characters, then tab characters, then forward slashes, then strip leading
and trailing whitespace. -/
def clean_title (title : PyStr) : PyStr :=
  pyStrip (removeChar '/' (removeChar '\t' (removeChar '\n' title)))

/-- One maximal digit run accumulator step of `re.findall` (see
`digitRuns`): `acc` holds the current run reversed. -/
def digitRunsAux : PyStr → PyStr → List PyStr
  | [], acc => if acc = [] then [] else [acc.reverse]
  | c :: rest, acc =>
    if c.isDigit then digitRunsAux rest (c :: acc)
    else if acc = [] then digitRunsAux rest []
    else acc.reverse :: digitRunsAux rest []

/-- Python regex `re.findall(r'\d+', s)`: the maximal runs of consecutive
digit characters in `s`, in order of occurrence. -/
def digitRuns (s : PyStr) : List PyStr :=
  digitRunsAux s []

/-- Python `int` applied to a string of decimal digits. -/
def digitsToNat (s : PyStr) : Nat :=
  s.foldl (fun n c => 10 * n + (c.toNat - Char.toNat '0')) 0

/-- `extract_number` (lines 226-235): `re.findall(r'\d+', str)`; `None`
when the list is empty, otherwise the found runs are joined and parsed as
one integer. -/
def extract_number (s : PyStr) : Option Nat :=
  let number := digitRuns s
  if number = [] then none
  else some (digitsToNat number.flatten)

/-- `num_of_pages` (lines 215-224): pass `None` through, otherwise
`math.ceil(num / 100)`, which over the non-negative counts the scraper
feeds it is the ceiling division `(num + 99) / 100` on naturals. -/
def num_of_pages : Option Nat → Option Nat
  | none => none
  | some num => some ((num + 99) / 100)

/-- The language-name to catalog-code table of `build_url` (the if/elif
chain on lines 260-276); any other name falls through to the else branch,
which prints a message and returns `None`. -/
def lang_code (language : String) : Option String :=
  if language = "Hindi" then some "hin"
  else if language = "Bengali" then some "ben"
  else if language = "Tamil" then some "tam"
  else if language = "Marathi" then some "mar"
  else if language = "Urdu" then some "urd"
  else if language = "Kannada" then some "kan"
  else if language = "English" then some "eng"
  else none

/-- The f-string of `build_url` (line 278), with the DDC code, language
code and offset interpolated at their places. -/
def url_string (DDC : Int) (lan : String) (num : Nat) : String :=
  "https://nationallibraryopac.nvli.in/cgi-bin/koha/opac-search.pl?idx=callnum&q="
    ++ toString DDC
    ++ "&limit=mc-itype%2Cphr%3ABKS&limit=ln%2Crtrn%3A"
    ++ lan
    ++ "&limit=fic%3A0&offset="
    ++ toString num
    ++ "&sort_by=call_number_dsc&count=100"

/-- `build_url` (lines 237-280): map the language name to its catalog code
and interpolate the search URL; an unrecognized language prints a message
and returns `None` (a plain `return` in Python). -/
def build_url (language : String) (num : Nat) (DDC : Int) : Option String :=
  match lang_code language with
  | none => none
  | some lan => some (url_string DDC lan num)

/-- One HTML element as the field extractors see it: its tag name, its
class attribute, its text content (`.text`, and `get_text(strip=True)` is
modelled as the text stripped), the first direct non-recursive string child
(`find(string=True, recursive=False)`), and its href attribute. -/
structure Elem where
  tag : String
  cls : Option String
  text : PyStr
  direct_string : Option PyStr
  href : Option PyStr
deriving DecidableEq, Repr

/-- A row fragment: the descendant elements of one result row, in document
order, as `soup.find` traverses them. -/
abbrev Fragment := List Elem

/-- BeautifulSoup `soup.find(tag)`: the first descendant with the tag,
`None` when there is none. -/
def findTag (frag : Fragment) (tag : String) : Option Elem :=
  frag.find? (fun e => e.tag == tag)

/-- BeautifulSoup `soup.find(tag, class_=cls)`: the first descendant with
the tag and the class. -/
def findTagClass (frag : Fragment) (tag cls : String) : Option Elem :=
  frag.find? (fun e => e.tag == tag && e.cls == some cls)

/-- BeautifulSoup `e.get_text(strip=True)`: the text content with
surrounding whitespace stripped. -/
def getTextStrip (e : Elem) : PyStr :=
  pyStrip e.text

/-- Python `s.split(":", 1)[1]`: the text after the first colon. Callers
either guard on the presence of the colon or catch the IndexError. -/
def afterColon (s : PyStr) : PyStr :=
  (s.dropWhile (fun c => c != ':')).drop 1

/-- `extract_text` (lines 67-82): the text of the first element with the
tag; the AttributeError raised when `find` yields `None` is caught and
becomes `None`. -/
def extract_text (soup : Fragment) (selector : String) : Option PyStr :=
  (findTag soup selector).map (fun e => e.text)

/-- `extract_text_class` (lines 84-99): as `extract_text`, with a class
constraint as well. -/
def extract_text_class (soup : Fragment) (selector cls : String) : Option PyStr :=
  (findTagClass soup selector cls).map (fun e => e.text)

/-- `extract_title` (lines 112-123): the first direct string child of the
anchor with class `title`, cleaned; an absent anchor or an absent string
child raises AttributeError, caught as `None`. -/
def extract_title (soup : Fragment) : Option PyStr :=
  ((findTagClass soup "a" "title").bind (fun temp => temp.direct_string)).map clean_title

/-- `extract_book_type` (lines 125-136): the stripped text of the span with
class `results_material_type`, with the label `"Material type:"` removed. -/
def extract_book_type (soup : Fragment) : Option PyStr :=
  (findTagClass soup "span" "results_material_type").map
    (fun temp => removeSub "Material type:".toList (getTextStrip temp))

/-- `extract_book_language` (lines 138-149): the stripped text of the span
with class `results_summary languages`, split on the first colon, second
segment stripped; a missing colon raises IndexError, caught as `None`. -/
def extract_book_language (soup : Fragment) : Option PyStr :=
  (findTagClass soup "span" "results_summary languages").bind (fun temp =>
    if ':' ∈ getTextStrip temp then some (pyStrip (afterColon (getTextStrip temp)))
    else none)

/-- `extract_book_form` (lines 151-167): as the language, but a text with
no colon returns the whole stripped text instead of failing. -/
def extract_book_form (soup : Fragment) : Option PyStr :=
  (findTagClass soup "span" "results_contents_literary").map (fun temp =>
    if ':' ∈ getTextStrip temp then pyStrip (afterColon (getTextStrip temp))
    else pyStrip (getTextStrip temp))

/-- `extract_call_number` (lines 169-177): the stripped text of the span
with class `CallNumber`. -/
def extract_call_number (book : Fragment) : Option PyStr :=
  (findTagClass book "span" "CallNumber").map (fun e => pyStrip e.text)

/-- `extract_link` (lines 179-187): the href of the first anchor; `.get`
returns `None` for a missing attribute without raising, and a missing
anchor raises AttributeError, caught as `None`. -/
def extract_link (book : Fragment) : Option PyStr :=
  (findTag book "a").bind (fun a => a.href)

/-- One scraped record: the 8-tuple `parse_book` yields. Every field is
optional, an extraction failure degrades to `None`. -/
structure Record where
  title : Option PyStr
  call_number : Option PyStr
  author : Option PyStr
  booktype : Option PyStr
  form : Option PyStr
  language : Option PyStr
  year : Option PyStr
  link : Option PyStr
deriving DecidableEq, Repr

/-- `parse_book` (lines 189-201): apply the eight field extractors to one
row fragment and yield the assembled tuple (the Python generator yields
exactly once). -/
def parse_book (book : Fragment) : Record where
  title := extract_title book
  call_number := extract_call_number book
  author := extract_text book "p"
  booktype := extract_book_type book
  form := extract_book_form book
  language := extract_book_language book
  year := extract_text_class book "span" "publisher_date"
  link := extract_link book

/-- The uniqueness constraints declared by the CREATE TABLE statement of
`save_to_database` (lines 297-300): the statement declares eight plain
text columns and no PRIMARY KEY and no UNIQUE constraint, so the list of
constraints is empty. A constraint would be a key function; SQLite OR
IGNORE drops an insert only when some constraint key collides. -/
def books_unique_constraints : List (Record → List (Option PyStr)) :=
  []

/-- SQLite `INSERT OR IGNORE` of one row: the row is silently dropped
exactly when it would violate one of the declared uniqueness constraints,
otherwise it is appended to the table. -/
def insert_or_ignore (constraints : List (Record → List (Option PyStr)))
    (rows : List Record) (r : Record) : List Record :=
  if constraints.any (fun key => rows.any (fun r0 => key r0 == key r)) then rows
  else rows ++ [r]

/-- `save_to_database` (lines 282-308): create the books table if absent
(its declared constraints are `books_unique_constraints`), then
`executemany` an INSERT OR IGNORE of every record of the page, then
commit. -/
def save_to_database (rows : List Record) (page_results : List Record) : List Record :=
  page_results.foldl (insert_or_ignore books_unique_constraints) rows

/-- `save_code_scraped` (lines 379-392): read the ledger CSV, append one
row holding `code`, write it back; a FileNotFoundError (ledger `none`)
makes the new one-row frame the whole ledger. -/
def save_code_scraped (ledger : Option (List Int)) (code : Int) : List Int :=
  match ledger with
  | some existing_df => existing_df ++ [code]
  | none => [code]

/-- `progress_update_codes` (lines 430-450): read the full code list and
the ledger of scraped codes (a FileNotFoundError, ledger `none`, is
treated as the empty list), and keep the codes not in the ledger, in the
order of the full list. -/
def progress_update_codes (list_of_codes : List Int) (ledger : Option (List Int)) : List Int :=
  let codes_scraped := ledger.getD []
  list_of_codes.filter (fun code => !codes_scraped.contains code)

/-- The exception `httpx.get` raises when handed `None` in place of a URL
string (before any network contact is attempted). -/
inductive PyError where
  | typeError
deriving DecidableEq, Repr

/-- `num_of_results` (lines 204-213): fetch the URL, parse the page and
take the stripped text of the `h1` heading — abstracted into the oracle
`fetchHeading` — then extract the count with `extract_number`. A `None`
URL raises a TypeError inside `httpx.get`. -/
def num_of_results (fetchHeading : String → PyStr) :
    Option String → Except PyError (Option Nat)
  | none => Except.error PyError.typeError
  | some url => Except.ok (extract_number (pyStrip (fetchHeading url)))

/-- What one `parse_code` unit did: the count it saw and the URLs its
paging loop fetches, in loop order. -/
structure UnitRun where
  num_res : Option Nat
  page_urls : List (Option String)
deriving DecidableEq, Repr

/-- `parse_code` (lines 338-377): build the offset-0 URL, get the result
count, derive the page count, and when the count is present loop over page
indexes `0 .. num_pages - 1`, fetching the URL built at offset `i * 100`
for page index `i`. When the count is `None` the loop is skipped (only a
message is printed). When the count is `some n`, `num_of_pages` is `some`
of the ceiling, so the `getD 0` below never takes its default. -/
def parse_code (fetchHeading : String → PyStr) (language : String) (code : Int) :
    Except PyError UnitRun :=
  match num_of_results fetchHeading (build_url language 0 code) with
  | Except.error e => Except.error e
  | Except.ok none => Except.ok ⟨none, []⟩
  | Except.ok (some n) =>
      Except.ok ⟨some n, (List.range ((num_of_pages (some n)).getD 0)).map
        (fun i => build_url language (i * 100) code)⟩

/-! ## Helper lemmas -/

/-- A concrete record, as one parsed row would produce it. -/
def sampleRecord : Record :=
  ⟨some "T".toList, some "641 K1".toList, some "A".toList, some "Text".toList,
   some "Not fiction".toList, some "Hindi".toList, some "1999".toList, some "/x".toList⟩

/-- Inversion of `parse_code`: a run that ended without an exception either
saw no count and fetched no page, or saw a count `n` and fetched the pages
of the paging loop. -/
lemma parse_code_ok_inv (f : String → PyStr) (lang : String) (code : Int) (run : UnitRun)
    (h : parse_code f lang code = Except.ok run) :
    (run.num_res = none ∧ run.page_urls = [])
    ∨ ∃ n : Nat, run.num_res = some n
        ∧ run.page_urls
          = (List.range ((n + 99) / 100)).map (fun i => build_url lang (i * 100) code) := by
  unfold parse_code at h
  cases hb : build_url lang 0 code with
  | none => rw [hb] at h; simp [num_of_results] at h
  | some url =>
    rw [hb] at h
    simp only [num_of_results] at h
    cases he : extract_number (pyStrip (f url)) with
    | none =>
      rw [he] at h
      simp only [Except.ok.injEq] at h
      subst h
      exact Or.inl ⟨rfl, rfl⟩
    | some n =>
      rw [he] at h
      simp only [Except.ok.injEq] at h
      subst h
      exact Or.inr ⟨n, rfl, rfl⟩

/-! ## Theorems for the claims -/

/-- Claim C1 (code bug): the CREATE TABLE statement of `save_to_database`
declares no PRIMARY KEY and no UNIQUE constraint, so INSERT OR IGNORE has
no conflict to ignore: storing the same record twice leaves two identical
rows, not one. The second conjunct shows the constraint-free insert always
appends. -/
theorem save_to_database_keeps_duplicate_rows :
    save_to_database (save_to_database [] [sampleRecord]) [sampleRecord]
      = [sampleRecord, sampleRecord]
    ∧ ∀ (rows : List Record) (r : Record),
        insert_or_ignore books_unique_constraints rows r = rows ++ [r] := by
  exact ⟨rfl, fun rows r => rfl⟩

/-- Claim C2 (code bug): for a facet name outside the fixed table,
`build_url` does return the unsupported outcome (`None`) and constructs no
URL; but `parse_code` passes that `None` straight to the fetch inside
`num_of_results`, where `httpx.get` raises a TypeError — the run aborts
instead of skipping the unit. -/
theorem unsupported_facet_aborts_run :
    build_url "French" 0 600 = none
    ∧ ∀ (fetchHeading : String → PyStr) (code : Int),
        parse_code fetchHeading "French" code = Except.error PyError.typeError := by
  exact ⟨rfl, fun fetchHeading code => rfl⟩

/-- Claim C4: `progress_update_codes` returns the universe minus the
ledger contents, in the order of the universe (it is a sublist of the
universe whose members are exactly the universe members outside the
ledger); an absent ledger behaves as an empty one, and the concrete
instance of the claim holds. -/
theorem remaining_codes_universe_minus_ledger :
    (∀ (full ledger : List Int),
        List.Sublist (progress_update_codes full (some ledger)) full)
    ∧ (∀ (full ledger : List Int) (x : Int),
        x ∈ progress_update_codes full (some ledger) ↔ x ∈ full ∧ x ∉ ledger)
    ∧ (∀ full : List Int, progress_update_codes full none = full)
    ∧ progress_update_codes [600, 601, 602, 603] (some [600, 601]) = [602, 603] := by
  refine ⟨?_, ?_, ?_, by decide⟩
  · intro full ledger
    exact List.filter_sublist full
  · intro full ledger x
    simp [progress_update_codes, List.mem_filter]
  · intro full
    simp [progress_update_codes]

/-- Claim C9: `save_code_scraped` appends exactly one entry to the ledger,
creating it when absent: the new ledger is the old one followed by the
code, every prior entry is preserved unchanged in its place, and the
length grows by one. -/
theorem mark_complete_appends_one :
    (∀ (ledger : List Int) (code : Int),
        save_code_scraped (some ledger) code = ledger ++ [code]
        ∧ (save_code_scraped (some ledger) code).take ledger.length = ledger
        ∧ (save_code_scraped (some ledger) code).length = ledger.length + 1)
    ∧ ∀ code : Int, save_code_scraped none code = [code] := by
  refine ⟨fun ledger code => ⟨rfl, ?_, ?_⟩, fun code => rfl⟩
  · show (ledger ++ [code]).take ledger.length = ledger
    simp
  · show (ledger ++ [code]).length = ledger.length + 1
    simp

/-- Claim C3: the page count the unit works through is the ceiling of the
result count divided by 100. A run whose count is absent fetches zero
pages; a run whose count is `n` fetches `P` pages where `P` is exactly the
ceiling of `n / 100` (characterized by `n ≤ 100 P < n + 100`); and the
concrete values of the claim hold. `num_of_pages` itself passes the absent
count through as `None`, which the driver then treats as zero pages. -/
theorem page_count_is_ceiling_division :
    (∀ (fetchHeading : String → PyStr) (lang : String) (code : Int) (run : UnitRun),
        parse_code fetchHeading lang code = Except.ok run → run.num_res = none →
          run.page_urls.length = 0)
    ∧ (∀ (fetchHeading : String → PyStr) (lang : String) (code : Int) (run : UnitRun)
        (n : Nat),
        parse_code fetchHeading lang code = Except.ok run → run.num_res = some n →
          n ≤ 100 * run.page_urls.length ∧ 100 * run.page_urls.length < n + 100)
    ∧ num_of_pages none = none
    ∧ num_of_pages (some 0) = some 0
    ∧ num_of_pages (some 100) = some 1
    ∧ num_of_pages (some 101) = some 2
    ∧ num_of_pages (some 250) = some 3 := by
  refine ⟨?_, ?_, rfl, rfl, rfl, rfl, rfl⟩
  · intro f lang code run hok hn
    obtain ⟨_, hurls⟩ | ⟨m, hm, _⟩ := parse_code_ok_inv f lang code run hok
    · rw [hurls]; rfl
    · rw [hm] at hn; cases hn
  · intro f lang code run n hok hn
    obtain ⟨hnone, _⟩ | ⟨m, hm, hurls⟩ := parse_code_ok_inv f lang code run hok
    · rw [hnone] at hn; cases hn
    · rw [hm] at hn
      injection hn with hn
      subst hn
      rw [hurls, List.length_map, List.length_range]
      omega

/-- The heading oracle of a page whose `h1` announces 250 results. -/
def heading250 : String → PyStr :=
  fun _ => "250 results".toList

/-- The run `parse_code` produces for Hindi, code 600, with 250 results. -/
def hindiRun250 : UnitRun :=
  ⟨some 250, (List.range 3).map (fun i => build_url "Hindi" (i * 100) 600)⟩

/-- Witness for claim C3: the ceiling bound at the concrete run with 250
results (3 pages). -/
theorem page_count_is_ceiling_division_witness :
    250 ≤ 100 * hindiRun250.page_urls.length
    ∧ 100 * hindiRun250.page_urls.length < 250 + 100 :=
  page_count_is_ceiling_division.2.1 heading250 "Hindi" 600 hindiRun250 250 rfl rfl

/-- Claim C8: a unit whose count is present fetches exactly the derived
number of pages, in increasing page-index order: the URL fetched for page
index `i` is the one built at offset `i * 100`, and every built URL fixes
the page size at 100 (and the call-number-descending sort). -/
theorem pagination_fetches_pages_in_order
    (fetchHeading : String → PyStr) (lang lan : String) (code : Int) (n : Nat)
    (run : UnitRun)
    (hlan : lang_code lang = some lan)
    (hok : parse_code fetchHeading lang code = Except.ok run)
    (hn : run.num_res = some n) :
    run.page_urls.length = (num_of_pages (some n)).getD 0
    ∧ (∀ i, i < run.page_urls.length →
        run.page_urls[i]? = some (some (url_string code lan (i * 100))))
    ∧ ∀ i : Nat, ∃ pre : String,
        url_string code lan (i * 100) = pre ++ "&sort_by=call_number_dsc&count=100" := by
  obtain ⟨hnone, _⟩ | ⟨m, hm, hurls⟩ := parse_code_ok_inv fetchHeading lang code run hok
  · rw [hnone] at hn; cases hn
  · rw [hm] at hn
    injection hn with hn
    subst hn
    refine ⟨?_, ?_, ?_⟩
    · rw [hurls, List.length_map, List.length_range]; rfl
    · intro i hi
      rw [hurls, List.length_map, List.length_range] at hi
      rw [hurls, List.getElem?_map, List.getElem?_range hi]
      simp [build_url, hlan]
    · intro i
      exact ⟨_, rfl⟩

/-- The heading oracle of a page whose `h1` announces 150 results. -/
def heading150 : String → PyStr :=
  fun _ => "150 results".toList

/-- The run `parse_code` produces for Hindi, code 600, with 150 results:
two pages, at offsets 0 and 100. -/
def hindiRun150 : UnitRun :=
  ⟨some 150, [build_url "Hindi" 0 600, build_url "Hindi" 100 600]⟩

/-- Witness for claim C8: the concrete Hindi run with 150 results fetches
2 pages, at offsets 0 and 100. -/
theorem pagination_fetches_pages_in_order_witness :
    hindiRun150.page_urls.length = (num_of_pages (some 150)).getD 0
    ∧ (∀ i, i < hindiRun150.page_urls.length →
        hindiRun150.page_urls[i]? = some (some (url_string 600 "hin" (i * 100))))
    ∧ ∀ i : Nat, ∃ pre : String,
        url_string 600 "hin" (i * 100) = pre ++ "&sort_by=call_number_dsc&count=100" :=
  pagination_fetches_pages_in_order heading150 "Hindi" "hin" 600 150 hindiRun150 rfl rfl rfl

/-- The three character removals of `clean_title` collapse to one filter
that drops every newline, tab and forward slash. -/
lemma triple_removeChar_eq_filter (t : PyStr) :
    removeChar '/' (removeChar '\t' (removeChar '\n' t))
      = t.filter (fun c => !(c == '\n' || c == '\t' || c == '/')) := by
  unfold removeChar
  rw [List.filter_filter, List.filter_filter]
  apply List.filter_congr
  intro c _
  by_cases h1 : c = '\n'
  · simp [h1]
  · by_cases h2 : c = '\t'
    · simp [h2]
    · by_cases h3 : c = '/'
      · simp [h3]
      · have b1 : (c == '\n') = false := by simpa using h1
        have b2 : (c == '\t') = false := by simpa using h2
        have b3 : (c == '/') = false := by simpa using h3
        simp [bne, b1, b2, b3]

/-- Claim C5: `clean_title` removes every newline, tab and forward slash
and then trims surrounding whitespace; in particular the concrete input of
the claim maps to FooBarBaz. -/
theorem clean_title_removes_then_trims :
    (∀ t : PyStr,
        clean_title t = pyStrip (t.filter (fun c => !(c == '\n' || c == '\t' || c == '/'))))
    ∧ clean_title "  Foo\nBar\t/Baz  ".toList = "FooBarBaz".toList := by
  refine ⟨fun t => ?_, by decide⟩
  unfold clean_title
  rw [triple_removeChar_eq_filter t]

/-- A concrete row fragment with every element the extractors look for
except the author paragraph. -/
def sampleRow : Fragment :=
  [⟨"a", some "title", "The Title".toList, some " The Title /\n".toList,
      some "/cgi-bin/koha/opac-detail.pl?biblionumber=1".toList⟩,
   ⟨"span", some "CallNumber", " 641 K1 ".toList, none, none⟩,
   ⟨"span", some "results_material_type", "Material type: Text".toList, none, none⟩,
   ⟨"span", some "results_contents_literary", "Literary form: Not fiction".toList, none, none⟩,
   ⟨"span", some "results_summary languages", "Language: Hindi".toList, none, none⟩,
   ⟨"span", some "publisher_date", "1999".toList, none, none⟩]

/-- Claim C6: the record mapper is total — a fragment with no author
paragraph still yields a record, with `author = none`; on the concrete
fragment `sampleRow` (which lacks the paragraph) every other extractable
field is populated. -/
theorem record_mapper_tolerates_missing_author :
    (∀ book : Fragment, findTag book "p" = none → (parse_book book).author = none)
    ∧ (parse_book sampleRow).author = none
    ∧ (parse_book sampleRow).title = some "The Title".toList
    ∧ (parse_book sampleRow).call_number = some "641 K1".toList
    ∧ (parse_book sampleRow).booktype = some " Text".toList
    ∧ (parse_book sampleRow).form = some "Not fiction".toList
    ∧ (parse_book sampleRow).language = some "Hindi".toList
    ∧ (parse_book sampleRow).year = some "1999".toList
    ∧ (parse_book sampleRow).link.isSome = true := by
  refine ⟨?_, by decide, by decide, by decide, by decide, by decide, by decide, by decide,
    by decide⟩
  intro book h
  simp [parse_book, extract_text, h]

/-- Witness for claim C6: the tolerance statement applied at the concrete
fragment with no author paragraph. -/
theorem record_mapper_tolerates_missing_author_witness :
    (parse_book sampleRow).author = none :=
  record_mapper_tolerates_missing_author.1 sampleRow (by decide)

/-- The flattening of the digit-run accumulator: joining all maximal digit
runs of `s` (with the pending run `acc`, reversed, in front) yields the
digits of `s` in order. -/
lemma digitRunsAux_flatten (s : PyStr) :
    ∀ acc : PyStr, (digitRunsAux s acc).flatten = acc.reverse ++ s.filter Char.isDigit := by
  induction s with
  | nil =>
    intro acc
    by_cases h : acc = [] <;> simp [digitRunsAux, h]
  | cons c rest ih =>
    intro acc
    by_cases h : c.isDigit
    · rw [List.filter_cons]
      simp only [digitRunsAux, h, if_true, ih (c :: acc), List.reverse_cons]
      simp [h]
    · by_cases h2 : acc = []
      · simp [digitRunsAux, h, h2, ih [], List.filter_cons]
      · simp [digitRunsAux, h, h2, ih [], List.filter_cons]

/-- A string with no digit yields no digit run. -/
lemma digitRuns_nil_of_no_digit (s : PyStr) (h : s.filter Char.isDigit = []) :
    digitRuns s = [] := by
  unfold digitRuns
  induction s with
  | nil => rfl
  | cons c rest ih =>
    rw [List.filter_cons] at h
    by_cases hc : c.isDigit
    · rw [if_pos hc] at h; cases h
    · rw [if_neg hc] at h
      simp [digitRunsAux, hc, ih h]

/-- The digit runs are empty exactly when the string holds no digit. -/
lemma digitRuns_eq_nil_iff (s : PyStr) :
    digitRuns s = [] ↔ s.filter Char.isDigit = [] := by
  constructor
  · intro h
    have h2 := digitRunsAux_flatten s []
    rw [show digitRunsAux s [] = digitRuns s from rfl, h] at h2
    simpa using h2.symm
  · exact digitRuns_nil_of_no_digit s

/-- Claim C7: `extract_number` returns `None` exactly when the string has
no digit character; otherwise it returns the integer parsed from the
concatenation of all maximal digit runs in order — which is the digits of
the string in order of occurrence. -/
theorem extract_number_none_iff_no_digits :
    (∀ s : PyStr, extract_number s = none ↔ ∀ c ∈ s, c.isDigit = false)
    ∧ ∀ s : PyStr, (∃ c ∈ s, c.isDigit = true) →
        extract_number s = some (digitsToNat (s.filter Char.isDigit)) := by
  have hfilter : ∀ s : PyStr,
      (s.filter Char.isDigit = []) ↔ ∀ c ∈ s, c.isDigit = false := by
    intro s
    rw [List.filter_eq_nil_iff]
    constructor
    · intro h c hc
      exact Bool.eq_false_iff.mpr (h c hc)
    · intro h c hc
      exact Bool.eq_false_iff.mp (h c hc)
  constructor
  · intro s
    unfold extract_number
    by_cases h : digitRuns s = []
    · rw [if_pos h]
      simp only [true_iff]
      exact (hfilter s).mp ((digitRuns_eq_nil_iff s).mp h)
    · rw [if_neg h]
      apply iff_of_false
      · exact fun hx => Option.noConfusion hx
      · intro hall
        exact h ((digitRuns_eq_nil_iff s).mpr ((hfilter s).mpr hall))
  · intro s hs
    have hne : digitRuns s ≠ [] := by
      intro h
      have := (hfilter s).mp ((digitRuns_eq_nil_iff s).mp h)
      obtain ⟨c, hc, hd⟩ := hs
      rw [this c hc] at hd
      cases hd
    unfold extract_number
    rw [if_neg hne]
    have h2 := digitRunsAux_flatten s []
    rw [show digitRunsAux s [] = digitRuns s from rfl] at h2
    simp only [List.reverse_nil, List.nil_append] at h2
    rw [h2]

/-- Witness for claim C7: the positive case at a concrete string with
digit runs 12 and 3, which concatenate to the digits 123. -/
theorem extract_number_none_iff_no_digits_witness :
    extract_number "abc12x3".toList
      = some (digitsToNat ("abc12x3".toList.filter Char.isDigit)) :=
  extract_number_none_iff_no_digits.2 "abc12x3".toList ⟨'1', by decide, by decide⟩

/-- Dropping twice with the same predicate drops nothing new. -/
lemma dropWhile_dropWhile (p : Char → Bool) (l : PyStr) :
    (l.dropWhile p).dropWhile p = l.dropWhile p := by
  induction l with
  | nil => rfl
  | cons a t ih =>
    by_cases h : p a
    · simp [List.dropWhile_cons, h, ih]
    · simp [List.dropWhile_cons, h]

/-- The head of a dropWhile result does not satisfy the predicate. -/
lemma dropWhile_head_false (p : Char → Bool) (l : PyStr) (x : Char)
    (h : (l.dropWhile p).head? = some x) : p x = false := by
  have h2 := List.head?_dropWhile_not p l
  rw [h] at h2
  exact h2

/-- A list whose head (when any) fails the predicate is fixed by dropWhile. -/
lemma dropWhile_eq_self_of_head (p : Char → Bool) (l : PyStr)
    (h : ∀ x, l.head? = some x → p x = false) : l.dropWhile p = l := by
  cases l with
  | nil => rfl
  | cons a t => simp [List.dropWhile_cons, h a rfl]

/-- Stripping keeps a prefix of the front-stripped list. -/
lemma pyStrip_prefix (s : PyStr) : pyStrip s <+: s.dropWhile pyIsSpace := by
  have h : (pyStrip s).reverse <:+ (s.dropWhile pyIsSpace).reverse := by
    unfold pyStrip
    rw [List.reverse_reverse]
    exact List.dropWhile_suffix pyIsSpace
  exact List.reverse_suffix.mp h

/-- Stripping twice is stripping once. -/
lemma pyStrip_idem (s : PyStr) : pyStrip (pyStrip s) = pyStrip s := by
  have hdrop : (pyStrip s).dropWhile pyIsSpace = pyStrip s := by
    apply dropWhile_eq_self_of_head
    intro x hx
    obtain ⟨t, ht⟩ := pyStrip_prefix s
    cases hq : pyStrip s with
    | nil => rw [hq] at hx; cases hx
    | cons a u =>
      rw [hq] at hx
      simp only [List.head?_cons, Option.some.injEq] at hx
      have hh : (s.dropWhile pyIsSpace).head? = some a := by
        rw [← ht, hq]
        rfl
      exact hx ▸ dropWhile_head_false pyIsSpace s a hh
  show (((pyStrip s).dropWhile pyIsSpace).reverse.dropWhile pyIsSpace).reverse = pyStrip s
  rw [hdrop]
  have hrev : (pyStrip s).reverse = (s.dropWhile pyIsSpace).reverse.dropWhile pyIsSpace := by
    unfold pyStrip
    rw [List.reverse_reverse]
  rw [hrev, dropWhile_dropWhile, ← hrev]
  exact List.reverse_reverse _

/-- Membership in a stripped list implies membership in the original. -/
lemma mem_pyStrip {c : Char} {s : PyStr} (h : c ∈ pyStrip s) : c ∈ s := by
  unfold pyStrip at h
  rw [List.mem_reverse] at h
  have h2 := (List.dropWhile_suffix pyIsSpace).subset h
  rw [List.mem_reverse] at h2
  exact (List.dropWhile_suffix pyIsSpace).subset h2

/-- The removed character is gone. -/
lemma not_mem_removeChar (c : Char) (s : PyStr) : c ∉ removeChar c s := by
  intro h
  have h2 := (List.mem_filter.mp h).2
  simp at h2

/-- Membership after a removal implies membership before. -/
lemma mem_removeChar {c d : Char} {s : PyStr} (h : c ∈ removeChar d s) : c ∈ s :=
  (List.filter_sublist s).subset h

/-- Removing a character that is not there changes nothing. -/
lemma removeChar_eq_self {c : Char} {s : PyStr} (h : c ∉ s) : removeChar c s = s := by
  apply List.filter_eq_self.mpr
  intro a ha
  simp only [bne_iff_ne, ne_eq]
  intro he
  exact h (he ▸ ha)

/-- Claim C10: `clean_title` is idempotent — its output contains none of
the removed characters and carries no surrounding whitespace, so cleaning
it again changes nothing. -/
theorem clean_title_idempotent (t : PyStr) :
    clean_title (clean_title t) = clean_title t := by
  have hn : '\n' ∉ clean_title t := fun h =>
    not_mem_removeChar '\n' t (mem_removeChar (mem_removeChar (mem_pyStrip h)))
  have ht : '\t' ∉ clean_title t := fun h =>
    not_mem_removeChar '\t' (removeChar '\n' t) (mem_removeChar (mem_pyStrip h))
  have hs : '/' ∉ clean_title t := fun h =>
    not_mem_removeChar '/' (removeChar '\t' (removeChar '\n' t)) (mem_pyStrip h)
  have h1 : clean_title (clean_title t)
      = pyStrip (removeChar '/' (removeChar '\t' (removeChar '\n' (clean_title t)))) := rfl
  rw [h1, removeChar_eq_self hn, removeChar_eq_self ht, removeChar_eq_self hs]
  have h2 : clean_title t = pyStrip (removeChar '/' (removeChar '\t' (removeChar '\n' t))) := rfl
  rw [h2, pyStrip_idem]

end Scraper
